import Mathlib

/-!
Verification model of the WirePact contract provider (Rust).

The Rust sources are shallowly embedded:
* byte strings become `List Nat`;
* fallible Rust code (`Result<T, Box<dyn Error>>`) becomes `Res T`, which
  also has a `crash` constructor modelling a Rust `unwrap`/`expect` abort;
* the OpenSSL primitives (X.509 parsing, private-key parsing, SHA-256
  digesting) are abstracted into a `Crypto` record of pure functions,
  while `hex::encode` is modelled concretely;
* the filesystem of the local backend becomes a map from path to optional
  content, and the Kubernetes secret store becomes an optional secret
  holding an optional association-list data map;
* the gRPC environment (PKI and contract repository) becomes a record of
  response functions, and the provisioning workflow `fetch_contracts`
  becomes a state-passing function that also emits a trace of the external
  calls it performs.
-/

/-- Byte strings (Rust `Vec<u8>` / `&[u8]`). -/
abbrev Bytes := List Nat

/-- Result of running a piece of Rust code: normal return, a propagated
error (`Err`), or an aborted execution (a Rust `unwrap`/`expect` failure). -/
inductive Res (α : Type) where
  | ok (a : α)
  | err (msg : String)
  | crash (msg : String)
deriving Repr, DecidableEq

/-- Whether a `Res` is a normal return. -/
def Res.isOk {α : Type} : Res α → Bool
  | .ok _ => true
  | _ => false

/-- Concatenation of a list of byte strings (the loops in both
`store_chain` implementations append the certificates in order). -/
def concatBytes (l : List Bytes) : Bytes := l.flatten

/-- The sixteen lowercase hexadecimal digit characters, in value order. -/
def hexDigitChars : List Char :=
  ['0', '1', '2', '3', '4', '5', '6', '7', '8', '9']
    ++ ['a', 'b', 'c', 'd', 'e', 'f']

/-- Hex encoding of one byte, high nibble first (as `hex::encode` does). -/
def hexByte (b : Nat) : List Char :=
  [hexDigitChars.getD (b % 256 / 16) '0', hexDigitChars.getD (b % 16) '0']

/-- `hex::encode`: lowercase hexadecimal rendering of a byte string. -/
def hexEncode (bs : Bytes) : String :=
  String.mk (bs.map hexByte).flatten

/-- Abstract cryptographic primitives used by `certs.rs` and the storage
backends.  `parseCert b = some c` means `X509::from_pem(b)` succeeds and
yields the certificate object `c`; `parseKey` likewise models
`PKey::private_key_from_pem`; `sha256 c` models `cert.digest(sha256)`. -/
structure Crypto where
  parseCert : Bytes → Option Bytes
  parseKey : Bytes → Option Bytes
  sha256 : Bytes → Bytes

/-- `certs::certificate_hash`: parse the PEM certificate, digest it with
SHA-256 and hex-encode the digest; a parse failure is an error. -/
def certificate_hash (C : Crypto) (publicKey : Bytes) : Res String :=
  match C.parseCert publicKey with
  | none => .err "CryptoError: not a certificate"
  | some cert => .ok (hexEncode (C.sha256 cert))

/-! ## Local (filesystem) storage backend, `storage/local.rs` -/

/-- The filesystem visible to the local backend: path to optional content. -/
abbrev Fs := String → Option Bytes

/-- `tokio::fs::read`: error when the file does not exist. -/
def Fs.readFile (fs : Fs) (p : String) : Res Bytes :=
  match fs p with
  | some b => .ok b
  | none => .err "No such file"

/-- `Path::exists`. -/
def Fs.pathExists (fs : Fs) (p : String) : Bool := (fs p).isSome

/-- `tokio::fs::write` / `File::create` + `write_all`: whole-file overwrite. -/
def Fs.writeFile (fs : Fs) (p : String) (b : Bytes) : Fs :=
  fun q => if q = p then some b else fs q

/-- The four fixed file paths of the local backend (`LOCAL_DATA_PATH`
joined with the artifact file names). -/
def localCertPath : String := "./data/cert.crt"

def localKeyPath : String := "./data/cert.key"

def localCaPath : String := "./data/ca.crt"

def localChainPath : String := "./data/chain.crt"

namespace LocalStorage

/-- `LocalStorage::has_certificate`.  Faithful to the source's evaluation
order: `cert_ok` is computed first (reading `cert.crt` and `unwrap`ping the
result, which aborts when the file is missing), then `key_ok` likewise,
and only then is the conjunction with the two `exists` checks formed. -/
def has_certificate (C : Crypto) (fs : Fs) : Res Bool :=
  match fs localCertPath with
  | none => .crash "called unwrap on an Err value"
  | some certBytes =>
    match fs localKeyPath with
    | none => .crash "called unwrap on an Err value"
    | some keyBytes =>
      .ok (fs.pathExists localCertPath && fs.pathExists localKeyPath
            && (C.parseCert certBytes).isSome && (C.parseKey keyBytes).isSome)

/-- `LocalStorage::store_certificate`: write `cert.crt` then `cert.key`. -/
def store_certificate (certificate key : Bytes) (fs : Fs) : Res Fs :=
  .ok ((fs.writeFile localCertPath certificate).writeFile localKeyPath key)

/-- `LocalStorage::has_ca`: `ca.exists() && X509::from_pem(read(ca)).is_ok()`;
the `&&` short-circuits, so the read only happens when the file exists. -/
def has_ca (C : Crypto) (fs : Fs) : Res Bool :=
  .ok (fs.pathExists localCaPath &&
    match fs localCaPath with
    | some b => (C.parseCert b).isSome
    | none => false)

/-- `LocalStorage::get_ca`: read `ca.crt` (error when missing), hash it. -/
def get_ca (C : Crypto) (fs : Fs) : Res (Bytes × String) :=
  match fs localCaPath with
  | none => .err "No such file"
  | some ca =>
    match certificate_hash C ca with
    | .ok h => .ok (ca, h)
    | .err e => .err e
    | .crash m => .crash m

/-- `LocalStorage::store_ca`: overwrite `ca.crt`. -/
def store_ca (certificate : Bytes) (fs : Fs) : Res Fs :=
  .ok (fs.writeFile localCaPath certificate)

/-- `LocalStorage::store_chain`: `File::create` truncates `chain.crt`, then
every certificate is appended in order, so the file ends up holding exactly
the concatenation of the given certificates. -/
def store_chain (certificates : List Bytes) (fs : Fs) : Res Fs :=
  .ok (fs.writeFile localChainPath (concatBytes certificates))

end LocalStorage

/-- The completely empty filesystem (a fresh `./data` directory). -/
def emptyFs : Fs := fun _ => none

/-! ## Kubernetes secret storage backend, `storage/kubernetes.rs` -/

/-- The data map of a Kubernetes secret (`BTreeMap<String, ByteString>`),
modelled as an association list with unique observable keys. -/
abbrev SData := List (String × Bytes)

/-- Map lookup (`BTreeMap::get`). -/
def SData.find (d : SData) (k : String) : Option Bytes :=
  (d.find? (fun p => p.fst = k)).map Prod.snd

/-- Map insertion (`BTreeMap::insert`): the new binding replaces any
existing binding for the same key. -/
def SData.insert (d : SData) (k : String) (v : Bytes) : SData :=
  (k, v) :: d.eraseP (fun p => decide (p.fst = k))

/-- The five entry names used inside the secret. -/
def SECRET_CERT : String := "cert"

def SECRET_CERT_WITH_CA : String := "cert_with_ca"

def SECRET_KEY : String := "key"

def SECRET_CHAIN : String := "chain"

def SECRET_CA : String := "ca"

/-- A Kubernetes `Secret` object: its `data` field is optional. -/
structure KSecret where
  data : Option SData
deriving Repr, DecidableEq

/-- The state the Kubernetes backend acts on: the named secret may be
absent, and `apiFails` models the control-plane API being unreachable
(every get / commit then returns an error). -/
structure KState where
  secret : Option KSecret
  apiFails : Bool
deriving Repr, DecidableEq

/-- A fresh storage target: the secret does not exist, the API works. -/
def freshKState : KState := { secret := none, apiFails := false }

namespace KubernetesStorage

/-- `KubernetesStorage::modify_secret`: fetch-or-create the secret (a new
secret has no data), apply the mutation, commit the result. -/
def modify_secret (st : KState) (f : KSecret → KSecret) : Res KState :=
  if st.apiFails then .err "kube api error"
  else
    let s := st.secret.getD { data := none }
    .ok { st with secret := some (f s) }

/-- `KubernetesStorage::has_certificate`: `get_opt` the secret; any API
error, absent secret, absent data map or absent entry yields `false`;
otherwise both the `cert` and the `key` entry must parse. -/
def has_certificate (C : Crypto) (st : KState) : Res Bool :=
  if st.apiFails then .ok false
  else
    match st.secret with
    | none => .ok false
    | some s =>
      match s.data with
      | none => .ok false
      | some data =>
        let certOk :=
          match data.find SECRET_CERT with
          | some cert => (C.parseCert cert).isSome
          | none => false
        let keyOk :=
          match data.find SECRET_KEY with
          | some key => (C.parseKey key).isSome
          | none => false
        .ok (certOk && keyOk)

/-- `KubernetesStorage::has_ca`: `get` the secret; any failure or missing
`ca` entry yields `false`; otherwise the entry must parse. -/
def has_ca (C : Crypto) (st : KState) : Res Bool :=
  if st.apiFails then .ok false
  else
    match st.secret with
    | none => .ok false
    | some s =>
      match s.data with
      | none => .ok false
      | some data =>
        match data.find SECRET_CA with
        | some cert => .ok (C.parseCert cert).isSome
        | none => .ok false

/-- `KubernetesStorage::get_ca`: read the `ca` entry and hash it; an API
failure, an absent secret, absent data or absent entry all fall through to
the `"No CA found"` error, while a hash failure propagates as is. -/
def get_ca (C : Crypto) (st : KState) : Res (Bytes × String) :=
  if st.apiFails then .err "No CA found"
  else
    match st.secret with
    | none => .err "No CA found"
    | some s =>
      match s.data with
      | none => .err "No CA found"
      | some data =>
        match data.find SECRET_CA with
        | none => .err "No CA found"
        | some cert =>
          match certificate_hash C cert with
          | .ok h => .ok (cert, h)
          | .err e => .err e
          | .crash m => .crash m

/-- `KubernetesStorage::store_certificate`: first read the current CA via
`get_ca` (its error propagates, leaving the secret untouched), then insert
the `cert` and `key` entries and the derived `cert_with_ca` entry, which is
the certificate bytes followed by the CA bytes. -/
def store_certificate (C : Crypto) (certificate key : Bytes) (st : KState) :
    Res KState :=
  match get_ca C st with
  | .err e => .err e
  | .crash m => .crash m
  | .ok (ca, _) =>
    modify_secret st (fun s =>
      let data := s.data.getD []
      let data := data.insert SECRET_CERT certificate
      let data := data.insert SECRET_KEY key
      { data := some (data.insert SECRET_CERT_WITH_CA (certificate ++ ca)) })

/-- `KubernetesStorage::store_ca`: insert the `ca` entry. -/
def store_ca (certificate : Bytes) (st : KState) : Res KState :=
  modify_secret st (fun s =>
    let data := s.data.getD []
    { data := some (data.insert SECRET_CA certificate) })

/-- `KubernetesStorage::store_chain`: insert the `chain` entry, holding the
concatenation of the given certificates in order. -/
def store_chain (certificates : List Bytes) (st : KState) : Res KState :=
  modify_secret st (fun s =>
    let data := s.data.getD []
    { data := some (data.insert SECRET_CHAIN (concatBytes certificates)) })

end KubernetesStorage

/-- The bytes stored under entry `k` of the secret, observed through the
secret object and its optional data map. -/
def KState.entry (st : KState) (k : String) : Option Bytes :=
  match st.secret with
  | none => none
  | some s =>
    match s.data with
    | none => none
    | some data => data.find k

/-! ## The storage trait and the provisioning workflow, `main.rs` -/

/-- The `Storage` trait of `storage/mod.rs`, as a record of operations over
a backend state type `σ`.  `Res σ` on the store operations means: on `ok`
the state advances, on `err`/`crash` nothing was persisted by that call
(or the call aborted) and the caller keeps the previous state. -/
structure StorageModel (σ : Type) where
  has_ca : σ → Res Bool
  has_certificate : σ → Res Bool
  get_ca : σ → Res (Bytes × String)
  store_ca : Bytes → σ → Res σ
  store_certificate : Bytes → Bytes → σ → Res σ
  store_chain : List Bytes → σ → Res σ

/-- The local backend instantiates the trait over a filesystem. -/
def localModel (C : Crypto) : StorageModel Fs where
  has_ca := LocalStorage.has_ca C
  has_certificate := LocalStorage.has_certificate C
  get_ca := LocalStorage.get_ca C
  store_ca := LocalStorage.store_ca
  store_certificate := LocalStorage.store_certificate
  store_chain := LocalStorage.store_chain

/-- The Kubernetes backend instantiates the trait over a secret state. -/
def kubeModel (C : Crypto) : StorageModel KState where
  has_ca := KubernetesStorage.has_ca C
  has_certificate := KubernetesStorage.has_certificate C
  get_ca := KubernetesStorage.get_ca C
  store_ca := KubernetesStorage.store_ca
  store_certificate := KubernetesStorage.store_certificate C
  store_chain := KubernetesStorage.store_chain

/-- The remote environment of one cycle: the PKI's `get_ca` response, the
PKI's `sign_csr` response as a function of the submitted CSR, and the
repository's `get_certificates` response as a function of the hash. -/
structure Env where
  caResponse : Bytes
  signResponse : Bytes → Bytes
  repoCertificates : String → List Bytes

/-- The output of `certs::create_csr` for this cycle (the key pair is
freshly generated, so it is an input of the model): the PEM private key
(`private_key_to_pem_pkcs8`) and the PEM CSR (`to_pem`). -/
structure Csr where
  keyPem : Bytes
  csrPem : Bytes

/-- The externally visible calls a workflow cycle performs. -/
inductive Event where
  | pkiGetCa
  | pkiSignCsr (csr : Bytes)
  | repoGetCertificates (hash : String)
  | storeCa (b : Bytes)
  | storeCertificate (cert key : Bytes)
  | storeChain (certs : List Bytes)
deriving Repr, DecidableEq

/-- Sequencing of traced stateful steps: a failed step short-circuits,
keeping the trace accumulated so far. -/
def andThen {σ : Type} (r : Res σ × List Event)
    (f : σ → Res σ × List Event) : Res σ × List Event :=
  match r.fst with
  | .ok s => ((f s).fst, r.snd ++ (f s).snd)
  | .err e => (.err e, r.snd)
  | .crash m => (.crash m, r.snd)

/-- Step 3 of the workflow (`main.rs` lines 182-187): if `has_ca()` is
false, call the PKI's `get_ca` and store the returned certificate. -/
def step_ca {σ : Type} (M : StorageModel σ) (env : Env) (s : σ) :
    Res σ × List Event :=
  match M.has_ca s with
  | .ok true => (.ok s, [])
  | .ok false =>
    match M.store_ca env.caResponse s with
    | .ok s' => (.ok s', [.pkiGetCa, .storeCa env.caResponse])
    | .err e => (.err e, [.pkiGetCa])
    | .crash m => (.crash m, [.pkiGetCa])
  | .err e => (.err e, [])
  | .crash m => (.crash m, [])

/-- Step 4 of the workflow (`main.rs` lines 189-202): if
`has_certificate()` is false, build a CSR, have the PKI sign it and store
the signed certificate together with the private key. -/
def step_cert {σ : Type} (M : StorageModel σ) (env : Env) (g : Csr) (s : σ) :
    Res σ × List Event :=
  match M.has_certificate s with
  | .ok true => (.ok s, [])
  | .ok false =>
    let cert := env.signResponse g.csrPem
    match M.store_certificate cert g.keyPem s with
    | .ok s' => (.ok s', [.pkiSignCsr g.csrPem, .storeCertificate cert g.keyPem])
    | .err e => (.err e, [.pkiSignCsr g.csrPem])
    | .crash m => (.crash m, [.pkiSignCsr g.csrPem])
  | .err e => (.err e, [])
  | .crash m => (.crash m, [])

/-- Step 5 of the workflow (`main.rs` lines 204-215): read the CA and its
hash back via `get_ca`, ask the repository for the certificates of that
hash, push the CA bytes onto the returned list and store it as the chain. -/
def step_chain {σ : Type} (M : StorageModel σ) (env : Env) (s : σ) :
    Res σ × List Event :=
  match M.get_ca s with
  | .ok (ca, hash) =>
    let certs := env.repoCertificates hash ++ [ca]
    match M.store_chain certs s with
    | .ok s' => (.ok s', [.repoGetCertificates hash, .storeChain certs])
    | .err e => (.err e, [.repoGetCertificates hash])
    | .crash m => (.crash m, [.repoGetCertificates hash])
  | .err e => (.err e, [])
  | .crash m => (.crash m, [])

/-- `fetch_contracts` (`main.rs` lines 140-218), starting after the two
endpoint connections and the backend construction: ensure the CA, ensure
the private certificate, then fetch and store the chain. -/
def fetch_contracts {σ : Type} (M : StorageModel σ) (env : Env) (g : Csr)
    (s : σ) : Res σ × List Event :=
  andThen (step_ca M env s) (fun s1 =>
    andThen (step_cert M env g s1) (fun s2 => step_chain M env s2))

/-- How many events of a trace satisfy a predicate. -/
def countEvents (p : Event → Bool) (tr : List Event) : Nat :=
  (tr.filter p).length

/-- PKI calls: `get_ca` and `sign_csr`. -/
def Event.isPkiCall : Event → Bool
  | .pkiGetCa => true
  | .pkiSignCsr _ => true
  | _ => false

/-- Repository calls: `get_certificates`. -/
def Event.isRepoCall : Event → Bool
  | .repoGetCertificates _ => true
  | _ => false

/-- Chain store operations. -/
def Event.isStoreChain : Event → Bool
  | .storeChain _ => true
  | _ => false

/-! ## The scheduler loop, `main.rs` `provider_interval` -/

/-- `provider_interval` (`main.rs` lines 129-138), with the body of each
cycle abstracted into its outcome: `results i` is what the `fetch_contracts`
call of cycle `i` returns.  The loop body is
`fetch_contracts(&config).await.map_err(|e| error!(...))?;` followed by the
interval sleep, so an `Err` outcome is logged and then propagated by `?`,
returning from the function.  `provider_interval results start fuel`
observes up to `fuel` iterations from cycle `start` on and returns the list
of cycles whose `fetch_contracts` call actually ran, together with
`some msg` when the loop terminated by propagating an error (a crash inside
a cycle likewise ends the task). -/
def provider_interval (results : Nat → Res Unit) :
    Nat → Nat → List Nat × Option String
  | _, 0 => ([], none)
  | start, fuel + 1 =>
    match results start with
    | .ok _ =>
      let r := provider_interval results (start + 1) fuel
      (start :: r.fst, r.snd)
    | .err e => ([start], some e)
    | .crash m => ([start], some m)

/-- A run in which the very first cycle's `fetch_contracts` fails and every
later cycle would succeed. -/
def firstCycleFails : Nat → Res Unit :=
  fun i => if i = 0 then .err "could not fetch contracts" else .ok ()

/-! ## Namespace resolution, `KubernetesStorage::current_namespace` -/

/-- One named context of a kubeconfig file. -/
structure KContext where
  name : String
  contextNamespace : Option String
deriving Repr, DecidableEq

/-- The parts of a kubeconfig file the code looks at. -/
structure Kubeconfig where
  currentContext : Option String
  contexts : List KContext
deriving Repr, DecidableEq

/-- The environment `current_namespace` observes: the result of
`Kubeconfig::read()` (`none` models an unreadable or absent config), the
`POD_NAMESPACE` environment variable, and the content of the downward-API
file when it exists. -/
structure NsEnv where
  kubeconfig : Option Kubeconfig
  podNamespaceEnv : Option String
  downwardFile : Option String
deriving Repr, DecidableEq

/-- The fixed fallback namespace (`DEFAULT_NAMESPACE`). -/
def DEFAULT_NAMESPACE : String := "default"

/-- The fallthrough part of `current_namespace` (lines 47-57): the
`POD_NAMESPACE` variable if set, else the trimmed downward-API file content
if the file exists, else the default namespace. -/
def namespace_fallback (e : NsEnv) : Res String :=
  match e.podNamespaceEnv with
  | some value => .ok value
  | none =>
    match e.downwardFile with
    | some content => .ok content.trim
    | none => .ok DEFAULT_NAMESPACE

/-- `KubernetesStorage::current_namespace` (lines 28-58).  When the
kubeconfig is readable the current context's name (the empty string when
`current_context` is absent) is looked up among the contexts; finding no
such context aborts via `.expect("No context with name found.")`.  A found
context with a non-empty namespace wins; otherwise the code falls through
to `namespace_fallback`. -/
def current_namespace (e : NsEnv) : Res String :=
  match e.kubeconfig with
  | some config =>
    match config.contexts.find? (fun ctx => ctx.name = config.currentContext.getD "") with
    | none => .crash "No context with name found."
    | some ctx =>
      let ns := ctx.contextNamespace.getD ""
      if ns ≠ "" then .ok ns else namespace_fallback e
  | none => namespace_fallback e

/-- The current context's namespace as far as the spec's clause (a) is
concerned: defined only when the config is readable, the current context
resolves and its namespace is non-empty. -/
def configContextNamespace (e : NsEnv) : Option String :=
  match e.kubeconfig with
  | none => none
  | some config =>
    match config.contexts.find? (fun ctx => ctx.name = config.currentContext.getD "") with
    | none => none
    | some ctx =>
      match ctx.contextNamespace with
      | none => none
      | some ns => if ns = "" then none else some ns

/-- Modelled from the spec's words, for the refinement claim about
namespace precedence: choose the current context's namespace from a
readable cluster-config when that value is non-empty, otherwise the
downward-API environment variable when set, otherwise the trimmed content
of the downward-API file when it exists, otherwise `"default"`. -/
def resolve_namespace_spec (e : NsEnv) : String :=
  match configContextNamespace e with
  | some ns => ns
  | none =>
    match e.podNamespaceEnv with
    | some value => value
    | none =>
      match e.downwardFile with
      | some content => content.trim
      | none => DEFAULT_NAMESPACE

/-- Whether the kubeconfig situation avoids the `expect` abort: either the
config is unreadable, or the current context's name resolves to an entry. -/
def ctxResolvable (e : NsEnv) : Bool :=
  match e.kubeconfig with
  | none => true
  | some config =>
    (config.contexts.find? (fun ctx => ctx.name = config.currentContext.getD "")).isSome

/-! ## Concrete demonstration values used by the witnesses -/

/-- Lowercase-hex character test: membership in `hexDigitChars`. -/
def isLowerHexChar (c : Char) : Bool := hexDigitChars.contains c

/-- A string is a lowercase hex string when all its characters are
lowercase hexadecimal digits. -/
def isLowerHexString (s : String) : Bool := s.toList.all isLowerHexChar

/-- A concrete instantiation of the cryptographic primitives: the empty
byte string does not parse, everything else parses to itself, and the
digest is the identity. -/
def demoCrypto : Crypto where
  parseCert := fun b => if b = [] then none else some b
  parseKey := fun b => if b = [] then none else some b
  sha256 := fun b => b

/-- A concrete remote environment. -/
def demoEnv : Env where
  caResponse := [1, 2]
  signResponse := fun _ => [3, 4]
  repoCertificates := fun _ => [[5], [6]]

/-- A concrete generated key pair / CSR. -/
def demoCsr : Csr where
  keyPem := [9]
  csrPem := [8]

/-- A second concrete generated key pair / CSR (each cycle generates a
fresh one). -/
def demoCsr2 : Csr where
  keyPem := [19]
  csrPem := [18]

/-- A kubeconfig whose current context matches no context entry. -/
def cfgNoCtx : Kubeconfig where
  currentContext := some "prod"
  contexts := []

/-- An environment with that kubeconfig and with the downward-API
environment variable set (to show it is not consulted). -/
def nsEnvNoCtx : NsEnv where
  kubeconfig := some cfgNoCtx
  podNamespaceEnv := some "envns"
  downwardFile := some "filens"

/-- An environment in which every namespace source is available. -/
def nsEnvFull : NsEnv where
  kubeconfig := some
    { currentContext := some "prod"
      contexts := [{ name := "prod", contextNamespace := some "team-a" }] }
  podNamespaceEnv := some "envns"
  downwardFile := some " filens "

/-- A secret state already holding a CA entry and an unrelated entry. -/
def demoStWithCa : KState where
  secret := some { data := some [(SECRET_CA, [1, 2]), ("extra", [42])] }
  apiFails := false

/-- A secret state already holding a two-certificate chain. -/
def demoStOldChain : KState where
  secret := some { data := some [(SECRET_CHAIN, [100, 101])] }
  apiFails := false

/-- A filesystem already holding a two-certificate chain file. -/
def demoFsOldChain : Fs := Fs.writeFile emptyFs localChainPath [100, 101]

/-! ## Helper lemmas -/

theorem SData.find_insert_self (d : SData) (k : String) (v : Bytes) :
    (d.insert k v).find k = some v := by
  simp [SData.insert, SData.find, List.find?]

theorem List.find?_eraseP_of_ne (d : SData) (k k' : String) (h : k' ≠ k) :
    (d.eraseP (fun p => decide (p.fst = k))).find? (fun p => decide (p.fst = k')) =
      d.find? (fun p => decide (p.fst = k')) := by
  have hkk : ¬(k = k') := fun hq => h hq.symm
  induction d with
  | nil => rfl
  | cons p rest ih =>
    by_cases hp : p.fst = k
    · have hne : ¬(p.fst = k') := fun hq => h (hq.symm.trans hp)
      simp [List.eraseP_cons, List.find?_cons, hp, hne, hkk]
    · by_cases hq : p.fst = k'
      · simp [List.eraseP_cons, List.find?_cons, hp, hq, h]
      · simp [List.eraseP_cons, List.find?_cons, hp, hq, ih]

theorem SData.find_insert_ne (d : SData) (k k' : String) (v : Bytes)
    (h : k' ≠ k) : (d.insert k v).find k' = d.find k' := by
  have hkk : ¬(k = k') := fun hq => h hq.symm
  unfold SData.insert SData.find
  simp [List.find?_cons, hkk, List.find?_eraseP_of_ne d k k' h]

theorem hexDigitChars_getD_mem (i : Nat) (d : Char) (hd : d ∈ hexDigitChars) :
    hexDigitChars.getD i d ∈ hexDigitChars := by
  by_cases h : i < hexDigitChars.length
  · rw [List.getD_eq_getElem _ _ h]
    exact List.getElem_mem h
  · rw [List.getD_eq_default _ _ (Nat.le_of_not_lt h)]
    exact hd

theorem hexByte_lower (b : Nat) (c : Char) (hc : c ∈ hexByte b) :
    isLowerHexChar c = true := by
  have h0 : ('0' : Char) ∈ hexDigitChars := by decide
  have hmem : c ∈ hexDigitChars := by
    simp only [hexByte, List.mem_cons, List.not_mem_nil, or_false] at hc
    rcases hc with rfl | rfl
    · exact hexDigitChars_getD_mem _ _ h0
    · exact hexDigitChars_getD_mem _ _ h0
  simpa [isLowerHexChar] using hmem

theorem hexEncode_lower (bs : Bytes) :
    isLowerHexString (hexEncode bs) = true := by
  unfold isLowerHexString hexEncode
  rw [List.all_eq_true]
  intro c hc
  have hc' : c ∈ (bs.map hexByte).flatten := hc
  rw [List.mem_flatten] at hc'
  obtain ⟨l, hl, hcl⟩ := hc'
  rw [List.mem_map] at hl
  obtain ⟨b, _, rfl⟩ := hl
  exact hexByte_lower b c hcl

/-! ## Claim theorems -/

/-- C1: the claim says that in run-forever mode an error in one cycle's
workflow execution is logged and the next cycle still runs after the normal
sleep.  The code (`main.rs` lines 129-138) contradicts this: the `?` after
`map_err(|e| error!(...))` propagates the error out of `provider_interval`,
terminating the loop.  Concretely, when cycle 0 fails, only cycle 0 ever
executes (cycle 1 never runs even with fuel for three iterations) and the
loop exits carrying the error. -/
theorem c1_interval_loop_stops_on_first_error :
    provider_interval firstCycleFails 0 3 =
      ([0], some "could not fetch contracts") := by decide

/-- C2: the claim says `has_certificate()` never fails for every backend
and collapses a missing artifact to `false`.  The local backend
(`storage/local.rs` lines 28-35) contradicts this: it `unwrap`s the result
of reading `cert.crt` before the `exists()` checks are evaluated, so on a
filesystem with no certificate file the call aborts with a panic instead of
returning `false`. -/
theorem c2_local_has_certificate_panics_on_missing_file (C : Crypto) :
    LocalStorage.has_certificate C emptyFs =
      .crash "called unwrap on an Err value" := rfl

/-- C8: `certificate_hash` is deterministic (two applications to the same
bytes yield the same result), on every input whose certificate parse
succeeds it returns the lowercase hex encoding of the certificate's SHA-256
digest, and on every input that does not parse it fails with an error and
produces no hash. -/
theorem c8_certificate_hash_deterministic_lowercase (C : Crypto) (b : Bytes) :
    (∀ r1 r2 : Res String,
      certificate_hash C b = r1 → certificate_hash C b = r2 → r1 = r2) ∧
    (∀ cert : Bytes, C.parseCert b = some cert →
      certificate_hash C b = .ok (hexEncode (C.sha256 cert)) ∧
      isLowerHexString (hexEncode (C.sha256 cert)) = true) ∧
    (C.parseCert b = none →
      certificate_hash C b = .err "CryptoError: not a certificate") := by
  refine ⟨fun r1 r2 h1 h2 => h1.symm.trans h2, fun cert hc => ?_, fun hn => ?_⟩
  · unfold certificate_hash
    rw [hc]
    exact ⟨rfl, hexEncode_lower _⟩
  · unfold certificate_hash
    rw [hn]

/-- C8 witness: the hash of the parseable input `[0, 255]` under the
concrete primitives is the lowercase string `"00ff"` (twice over), and the
unparseable input `[]` yields the error. -/
theorem c8_witness :
    demoCrypto.parseCert [0, 255] = some [0, 255] ∧
    certificate_hash demoCrypto [0, 255] = .ok "00ff" ∧
    isLowerHexString "00ff" = true ∧
    demoCrypto.parseCert [] = none ∧
    certificate_hash demoCrypto [] = .err "CryptoError: not a certificate" := by
  have h := (c8_certificate_hash_deterministic_lowercase demoCrypto [0, 255]).2.1
    [0, 255] (by decide)
  have hn := (c8_certificate_hash_deterministic_lowercase demoCrypto []).2.2
    (by decide)
  have hx : hexEncode (demoCrypto.sha256 [0, 255]) = "00ff" := by decide
  refine ⟨by decide, ?_, ?_, by decide, hn⟩
  · rw [← hx]; exact h.1
  · rw [← hx]; exact h.2

/-- C10: when the local cluster-config is readable but its current-context
name (the empty string when `current_context` is absent) matches no context
entry, `current_namespace` aborts via `expect` instead of falling through
to the environment variable, the mounted file or the default. -/
theorem c10_unmatched_context_panics (e : NsEnv) (config : Kubeconfig)
    (h1 : e.kubeconfig = some config)
    (h2 : config.contexts.find?
      (fun ctx => ctx.name = config.currentContext.getD "") = none) :
    current_namespace e = .crash "No context with name found." := by
  simp only [current_namespace, h1, h2]

/-- C10 witness: a readable config whose current context `"prod"` matches
no entry aborts, even though the downward-API environment variable and file
are both available. -/
theorem c10_witness :
    nsEnvNoCtx.kubeconfig = some cfgNoCtx ∧
    cfgNoCtx.contexts.find?
      (fun ctx => ctx.name = cfgNoCtx.currentContext.getD "") = none ∧
    nsEnvNoCtx.podNamespaceEnv = some "envns" ∧
    current_namespace nsEnvNoCtx = .crash "No context with name found." :=
  ⟨rfl, rfl, rfl, c10_unmatched_context_panics nsEnvNoCtx cfgNoCtx rfl rfl⟩

/-- C6: whenever the kubeconfig situation does not abort (the config is
unreadable, or its current context resolves to an entry), the namespace the
backend construction resolves equals the spec's precedence order: the
current context's non-empty namespace from a readable config, else the
`POD_NAMESPACE` environment variable, else the trimmed downward-API file
content, else `"default"`. -/
theorem c6_namespace_precedence (e : NsEnv) (h : ctxResolvable e = true) :
    current_namespace e = .ok (resolve_namespace_spec e) := by
  unfold ctxResolvable at h
  cases hk : e.kubeconfig with
  | none =>
    simp only [current_namespace, resolve_namespace_spec, configContextNamespace,
      namespace_fallback, hk]
    cases e.podNamespaceEnv <;> cases e.downwardFile <;> simp
  | some config =>
    simp only [hk] at h
    cases hf : config.contexts.find?
        (fun ctx => ctx.name = config.currentContext.getD "") with
    | none => rw [hf] at h; simp at h
    | some ctx =>
      cases hn : ctx.contextNamespace with
      | none =>
        simp only [current_namespace, resolve_namespace_spec, configContextNamespace,
          namespace_fallback, hk, hf, hn, Option.getD_none]
        cases e.podNamespaceEnv <;> cases e.downwardFile <;> simp
      | some ns =>
        by_cases hns : ns = ""
        · subst hns
          simp only [current_namespace, resolve_namespace_spec, configContextNamespace,
            namespace_fallback, hk, hf, hn, Option.getD_some]
          cases e.podNamespaceEnv <;> cases e.downwardFile <;> simp
        · simp only [current_namespace, resolve_namespace_spec, configContextNamespace,
            namespace_fallback, hk, hf, hn, Option.getD_some]
          simp [hns]

/-- C6 witness: with every source available, the config's current-context
namespace `"team-a"` wins over the environment variable, the file and the
default. -/
theorem c6_witness :
    ctxResolvable nsEnvFull = true ∧
    nsEnvFull.podNamespaceEnv = some "envns" ∧
    nsEnvFull.downwardFile = some " filens " ∧
    resolve_namespace_spec nsEnvFull = "team-a" ∧
    current_namespace nsEnvFull = .ok "team-a" := by
  have h := c6_namespace_precedence nsEnvFull (by decide)
  have hr : resolve_namespace_spec nsEnvFull = "team-a" := by decide
  exact ⟨by decide, rfl, rfl, hr, by rw [h, hr]⟩

theorem KState.entry_norm (st : KState) (f : String) :
    st.entry f = ((st.secret.getD { data := none }).data.getD []).find f := by
  unfold KState.entry
  cases st.secret with
  | none => simp [SData.find]
  | some s =>
    obtain ⟨sd⟩ := s
    cases sd with
    | none => simp [SData.find]
    | some d => simp

/-- C5: for both backends, a successful `store_chain` is a full overwrite:
the persisted chain artifact afterwards equals exactly the concatenation of
the given certificates in the given order, whatever the previous state
held. -/
theorem c5_store_chain_full_overwrite :
    (∀ (fs : Fs) (cs : List Bytes) (fs2 : Fs),
      LocalStorage.store_chain cs fs = .ok fs2 →
        fs2 localChainPath = some (concatBytes cs)) ∧
    (∀ (st : KState) (cs : List Bytes) (st2 : KState),
      KubernetesStorage.store_chain cs st = .ok st2 →
        st2.entry SECRET_CHAIN = some (concatBytes cs)) := by
  constructor
  · intro fs cs fs2 h
    unfold LocalStorage.store_chain at h
    cases h
    simp [Fs.writeFile]
  · intro st cs st2 h
    unfold KubernetesStorage.store_chain KubernetesStorage.modify_secret at h
    by_cases ha : st.apiFails
    · simp [ha] at h
    · simp only [ha, Bool.false_eq_true, if_false] at h
      cases h
      simp [KState.entry, SData.find_insert_self]

/-- C5 witness: storing the one-certificate chain `[[7]]` over a state
whose previous chain was `[100, 101]` leaves exactly `[7]`, on both
backends. -/
theorem c5_witness :
    (LocalStorage.store_chain [[7]] demoFsOldChain =
        .ok (Fs.writeFile demoFsOldChain localChainPath [7]) ∧
      Fs.writeFile demoFsOldChain localChainPath [7] localChainPath = some [7]) ∧
    (KubernetesStorage.store_chain [[7]] demoStOldChain =
        .ok { secret := some { data := some [(SECRET_CHAIN, [7])] }, apiFails := false } ∧
      KState.entry { secret := some { data := some [(SECRET_CHAIN, [7])] }, apiFails := false }
        SECRET_CHAIN = some [7]) := by
  constructor
  · exact ⟨rfl, c5_store_chain_full_overwrite.1 demoFsOldChain [[7]] _ rfl⟩
  · refine ⟨by decide, ?_⟩
    exact c5_store_chain_full_overwrite.2 demoStOldChain [[7]] _ (by decide)

/-- C9: each store operation of the secret backend modifies only its
designated entries of the secret's data map: any entry with a different
name reads the same before and after a successful call. -/
theorem c9_store_operations_frame (C : Crypto) (st : KState) (b c k : Bytes)
    (cs : List Bytes) (f : String) :
    (∀ st2, KubernetesStorage.store_ca b st = .ok st2 → f ≠ SECRET_CA →
      st2.entry f = st.entry f) ∧
    (∀ st2, KubernetesStorage.store_chain cs st = .ok st2 → f ≠ SECRET_CHAIN →
      st2.entry f = st.entry f) ∧
    (∀ st2, KubernetesStorage.store_certificate C c k st = .ok st2 →
      f ≠ SECRET_CERT → f ≠ SECRET_KEY → f ≠ SECRET_CERT_WITH_CA →
      st2.entry f = st.entry f) := by
  refine ⟨fun st2 h hf => ?_, fun st2 h hf => ?_, fun st2 h h1 h2 h3 => ?_⟩
  · unfold KubernetesStorage.store_ca KubernetesStorage.modify_secret at h
    by_cases ha : st.apiFails
    · simp [ha] at h
    · simp only [ha, Bool.false_eq_true, if_false] at h
      cases h
      rw [KState.entry_norm st f]
      simp [KState.entry, SData.find_insert_ne _ _ _ _ hf]
  · unfold KubernetesStorage.store_chain KubernetesStorage.modify_secret at h
    by_cases ha : st.apiFails
    · simp [ha] at h
    · simp only [ha, Bool.false_eq_true, if_false] at h
      cases h
      rw [KState.entry_norm st f]
      simp [KState.entry, SData.find_insert_ne _ _ _ _ hf]
  · unfold KubernetesStorage.store_certificate at h
    cases hg : KubernetesStorage.get_ca C st with
    | err e => rw [hg] at h; cases h
    | crash m => rw [hg] at h; cases h
    | ok p =>
      obtain ⟨ca, hash⟩ := p
      rw [hg] at h
      unfold KubernetesStorage.modify_secret at h
      by_cases ha : st.apiFails
      · simp [ha] at h
      · simp only [ha, Bool.false_eq_true, if_false] at h
        cases h
        rw [KState.entry_norm st f]
        simp [KState.entry, SData.find_insert_ne _ _ _ _ h3,
          SData.find_insert_ne _ _ _ _ h2, SData.find_insert_ne _ _ _ _ h1]

/-- C9 witness: over a state holding a CA and an unrelated `extra` entry,
`store_ca` leaves `extra` untouched. -/
theorem c9_witness :
    (KubernetesStorage.store_ca [7, 8] demoStWithCa =
        .ok ⟨some ⟨some [(SECRET_CA, [7, 8]), ("extra", [42])]⟩, false⟩ ∧
      ("extra" : String) ≠ SECRET_CA ∧
      KState.entry ⟨some ⟨some [(SECRET_CA, [7, 8]), ("extra", [42])]⟩, false⟩ "extra" =
        demoStWithCa.entry "extra") ∧
    demoStWithCa.entry "extra" = some [42] := by
  refine ⟨⟨by decide, by decide, ?_⟩, by decide⟩
  exact (c9_store_operations_frame demoCrypto demoStWithCa [7, 8] [] [] [] "extra").1
    _ (by decide) (by decide)

/-- C7: the secret backend's `store_certificate` first reads the stored CA:
when no CA entry is stored the call fails with the not-found error before
any mutation is issued (an `err` result leaves the caller's state in
place), and on success the new state holds the certificate under `cert`,
the key under `key`, and under `cert_with_ca` exactly the certificate bytes
followed by the CA bytes that `get_ca` returned. -/
theorem c7_store_certificate_requires_ca (C : Crypto) (st : KState)
    (c k : Bytes) :
    (st.entry SECRET_CA = none →
      KubernetesStorage.store_certificate C c k st = .err "No CA found") ∧
    (∀ st2, KubernetesStorage.store_certificate C c k st = .ok st2 →
      ∃ ca hash, KubernetesStorage.get_ca C st = .ok (ca, hash) ∧
        st2.entry SECRET_CERT = some c ∧
        st2.entry SECRET_KEY = some k ∧
        st2.entry SECRET_CERT_WITH_CA = some (c ++ ca)) := by
  constructor
  · intro hca
    rw [KState.entry_norm] at hca
    have hg : KubernetesStorage.get_ca C st = .err "No CA found" := by
      unfold KubernetesStorage.get_ca
      by_cases ha : st.apiFails
      · simp [ha]
      · simp only [ha, Bool.false_eq_true, if_false]
        cases hs : st.secret with
        | none => rfl
        | some s =>
          obtain ⟨sd⟩ := s
          cases sd with
          | none => rfl
          | some d =>
            rw [hs] at hca
            simp only [Option.getD_some] at hca
            simp [hca]
    unfold KubernetesStorage.store_certificate
    rw [hg]
  · intro st2 h
    unfold KubernetesStorage.store_certificate at h
    cases hg : KubernetesStorage.get_ca C st with
    | err e => rw [hg] at h; cases h
    | crash m => rw [hg] at h; cases h
    | ok p =>
      obtain ⟨ca, hash⟩ := p
      rw [hg] at h
      unfold KubernetesStorage.modify_secret at h
      by_cases ha : st.apiFails
      · simp [ha] at h
      · simp only [ha, Bool.false_eq_true, if_false] at h
        cases h
        refine ⟨ca, hash, rfl, ?_, ?_, ?_⟩
        · simp [KState.entry, SData.find_insert_self,
            SData.find_insert_ne _ _ _ _ (by decide : SECRET_CERT ≠ SECRET_CERT_WITH_CA),
            SData.find_insert_ne _ _ _ _ (by decide : SECRET_CERT ≠ SECRET_KEY)]
        · simp [KState.entry, SData.find_insert_self,
            SData.find_insert_ne _ _ _ _ (by decide : SECRET_KEY ≠ SECRET_CERT_WITH_CA)]
        · simp [KState.entry, SData.find_insert_self]

/-- C7 witness: with a CA `[1, 2]` stored, storing certificate `[3, 4]` and
key `[9]` succeeds and sets `cert_with_ca` to `[3, 4, 1, 2]`; against the
fresh state with no CA it fails with the not-found error. -/
theorem c7_witness :
    (freshKState.entry SECRET_CA = none ∧
      KubernetesStorage.store_certificate demoCrypto [3, 4] [9] freshKState =
        .err "No CA found") ∧
    (KubernetesStorage.store_certificate demoCrypto [3, 4] [9] demoStWithCa =
        .ok (⟨some ⟨some [(SECRET_CERT_WITH_CA, [3, 4, 1, 2]), (SECRET_KEY, [9]),
          (SECRET_CERT, [3, 4]), (SECRET_CA, [1, 2]), ("extra", [42])]⟩,
          false⟩ : KState) ∧
      ∃ ca hash,
        KubernetesStorage.get_ca demoCrypto demoStWithCa = .ok (ca, hash) ∧
        KState.entry (⟨some ⟨some [(SECRET_CERT_WITH_CA, [3, 4, 1, 2]), (SECRET_KEY, [9]),
          (SECRET_CERT, [3, 4]), (SECRET_CA, [1, 2]), ("extra", [42])]⟩,
          false⟩ : KState) SECRET_CERT = some [3, 4] ∧
        KState.entry (⟨some ⟨some [(SECRET_CERT_WITH_CA, [3, 4, 1, 2]), (SECRET_KEY, [9]),
          (SECRET_CERT, [3, 4]), (SECRET_CA, [1, 2]), ("extra", [42])]⟩,
          false⟩ : KState) SECRET_KEY = some [9] ∧
        KState.entry (⟨some ⟨some [(SECRET_CERT_WITH_CA, [3, 4, 1, 2]), (SECRET_KEY, [9]),
          (SECRET_CERT, [3, 4]), (SECRET_CA, [1, 2]), ("extra", [42])]⟩,
          false⟩ : KState) SECRET_CERT_WITH_CA = some ([3, 4] ++ ca)) := by
  have hstore : KubernetesStorage.store_certificate demoCrypto [3, 4] [9] demoStWithCa =
      .ok (⟨some ⟨some [(SECRET_CERT_WITH_CA, [3, 4, 1, 2]), (SECRET_KEY, [9]),
        (SECRET_CERT, [3, 4]), (SECRET_CA, [1, 2]), ("extra", [42])]⟩,
        false⟩ : KState) := by decide
  refine ⟨⟨rfl,
    (c7_store_certificate_requires_ca demoCrypto freshKState [3, 4] [9]).1 rfl⟩,
    hstore, ?_⟩
  exact (c7_store_certificate_requires_ca demoCrypto demoStWithCa [3, 4] [9]).2
    _ hstore

theorem step_ca_no_storeChain {σ : Type} (M : StorageModel σ) (env : Env)
    (s : σ) : (step_ca M env s).snd.filter Event.isStoreChain = [] := by
  unfold step_ca
  cases h : M.has_ca s with
  | ok b =>
    cases b with
    | true => simp
    | false =>
      cases h2 : M.store_ca env.caResponse s <;>
        simp [h2, Event.isStoreChain]
  | err e => simp
  | crash m => simp

theorem step_cert_no_storeChain {σ : Type} (M : StorageModel σ) (env : Env)
    (g : Csr) (s : σ) :
    (step_cert M env g s).snd.filter Event.isStoreChain = [] := by
  unfold step_cert
  cases h : M.has_certificate s with
  | ok b =>
    cases b with
    | true => simp
    | false =>
      cases h2 : M.store_certificate (env.signResponse g.csrPem) g.keyPem s <;>
        simp [h2, Event.isStoreChain]
  | err e => simp
  | crash m => simp

theorem step_chain_ok_inv {σ : Type} {M : StorageModel σ} {env : Env}
    {s2 s3 : σ} {tr : List Event} (h : step_chain M env s2 = (.ok s3, tr)) :
    ∃ ca hash, M.get_ca s2 = .ok (ca, hash) ∧
      M.store_chain (env.repoCertificates hash ++ [ca]) s2 = .ok s3 ∧
      tr = [.repoGetCertificates hash,
        .storeChain (env.repoCertificates hash ++ [ca])] := by
  unfold step_chain at h
  rcases hg : M.get_ca s2 with p | e | m
  case err => simp only [hg] at h; simp at h
  case crash => simp only [hg] at h; simp at h
  case ok =>
    obtain ⟨ca, hash⟩ := p
    simp only [hg] at h
    rcases hs : M.store_chain (env.repoCertificates hash ++ [ca]) s2 with s4 | e | m
    case err => simp only [hs] at h; simp at h
    case crash => simp only [hs] at h; simp at h
    case ok =>
      simp only [hs, Prod.mk.injEq, Res.ok.injEq] at h
      exact ⟨ca, hash, rfl, h.1 ▸ hs, h.2.symm⟩

/-- C4: in every successful workflow cycle, over any backend, the chain
handed to `store_chain` is exactly the certificate list the repository
returned for the fingerprint obtained from `get_ca` in that same cycle,
in the repository's order, with the CA bytes from that same `get_ca` read
appended as the last element — and it is the only chain store of the
cycle. -/
theorem c4_chain_is_repo_list_plus_fresh_ca {σ : Type} (M : StorageModel σ)
    (env : Env) (g : Csr) (s0 s3 : σ) (tr : List Event)
    (h : fetch_contracts M env g s0 = (.ok s3, tr)) :
    ∃ s1 t1 s2 t2 ca hash,
      step_ca M env s0 = (.ok s1, t1) ∧
      step_cert M env g s1 = (.ok s2, t2) ∧
      M.get_ca s2 = .ok (ca, hash) ∧
      M.store_chain (env.repoCertificates hash ++ [ca]) s2 = .ok s3 ∧
      tr.filter Event.isStoreChain =
        [.storeChain (env.repoCertificates hash ++ [ca])] := by
  unfold fetch_contracts at h
  rcases h1 : step_ca M env s0 with ⟨r1, t1⟩
  cases r1 with
  | err e => simp only [h1, andThen] at h; simp at h
  | crash m => simp only [h1, andThen] at h; simp at h
  | ok s1 =>
    simp only [h1, andThen] at h
    rcases h2 : step_cert M env g s1 with ⟨r2, t2⟩
    cases r2 with
    | err e => simp only [h2, andThen] at h; simp at h
    | crash m => simp only [h2, andThen] at h; simp at h
    | ok s2 =>
      simp only [h2, andThen] at h
      rcases h3 : step_chain M env s2 with ⟨r3, t3⟩
      cases r3 with
      | err e => simp only [h3] at h; simp at h
      | crash m => simp only [h3] at h; simp at h
      | ok s4 =>
        simp only [h3, Prod.mk.injEq, Res.ok.injEq] at h
        obtain ⟨hs4, htr⟩ := h
        obtain ⟨ca, hash, hg, hs, ht3⟩ := step_chain_ok_inv (hs4 ▸ h3)
        refine ⟨s1, t1, s2, t2, ca, hash, rfl, h2, hg, hs, ?_⟩
        rw [← htr, ht3]
        rw [List.filter_append, List.filter_append]
        have e1 := step_ca_no_storeChain M env s0
        have e2 := step_cert_no_storeChain M env g s1
        rw [h1] at e1
        rw [h2] at e2
        simp only at e1 e2
        rw [e1, e2]
        simp [Event.isStoreChain]

/-- C4 witness: a concrete successful cycle over the Kubernetes backend,
whose single chain store holds the repository's two certificates followed
by the CA. -/
theorem c4_witness :
    fetch_contracts (kubeModel demoCrypto) demoEnv demoCsr freshKState =
      (.ok (⟨some ⟨some [(SECRET_CHAIN, [5, 6, 1, 2]),
        (SECRET_CERT_WITH_CA, [3, 4, 1, 2]), (SECRET_KEY, [9]),
        (SECRET_CERT, [3, 4]), (SECRET_CA, [1, 2])]⟩, false⟩ : KState),
       [.pkiGetCa, .storeCa [1, 2], .pkiSignCsr [8],
        .storeCertificate [3, 4] [9], .repoGetCertificates "0102",
        .storeChain [[5], [6], [1, 2]]]) ∧
    ∃ s1 t1 s2 t2 ca hash,
      step_ca (kubeModel demoCrypto) demoEnv freshKState = (.ok s1, t1) ∧
      step_cert (kubeModel demoCrypto) demoEnv demoCsr s1 = (.ok s2, t2) ∧
      (kubeModel demoCrypto).get_ca s2 = .ok (ca, hash) ∧
      (kubeModel demoCrypto).store_chain (demoEnv.repoCertificates hash ++ [ca]) s2 =
        .ok (⟨some ⟨some [(SECRET_CHAIN, [5, 6, 1, 2]),
          (SECRET_CERT_WITH_CA, [3, 4, 1, 2]), (SECRET_KEY, [9]),
          (SECRET_CERT, [3, 4]), (SECRET_CA, [1, 2])]⟩, false⟩ : KState) ∧
      List.filter Event.isStoreChain
        [.pkiGetCa, .storeCa [1, 2], .pkiSignCsr [8],
          .storeCertificate [3, 4] [9], .repoGetCertificates "0102",
          .storeChain [[5], [6], [1, 2]]] =
        [.storeChain (demoEnv.repoCertificates hash ++ [ca])] :=
  ⟨by decide,
    c4_chain_is_repo_list_plus_fresh_ca (kubeModel demoCrypto) demoEnv demoCsr
      freshKState _ _ (by decide)⟩

/-- C3: over the Kubernetes backend (the local backend cannot even finish a
first run from a fresh target, see the C2 theorem), when the PKI's CA
certificate, the signed certificate and the generated key all parse, a
first workflow run from the fresh storage target succeeds, and the second
run immediately after performs zero PKI calls but still exactly one
repository get-certificates call and one chain store. -/
theorem c3_second_run_zero_pki_one_repo_one_chain (C : Crypto) (env : Env)
    (g1 g2 : Csr) (pc pcert pk : Bytes)
    (h1 : C.parseCert env.caResponse = some pc)
    (h2 : C.parseCert (env.signResponse g1.csrPem) = some pcert)
    (h3 : C.parseKey g1.keyPem = some pk) :
    ∃ (s1 s2 : KState) (tr1 tr2 : List Event),
      fetch_contracts (kubeModel C) env g1 freshKState = (.ok s1, tr1) ∧
      fetch_contracts (kubeModel C) env g2 s1 = (.ok s2, tr2) ∧
      countEvents Event.isPkiCall tr2 = 0 ∧
      countEvents Event.isRepoCall tr2 = 1 ∧
      countEvents Event.isStoreChain tr2 = 1 := by
  refine ⟨⟨some ⟨some [
      (SECRET_CHAIN, concatBytes (env.repoCertificates (hexEncode (C.sha256 pc)) ++ [env.caResponse])),
      (SECRET_CERT_WITH_CA, env.signResponse g1.csrPem ++ env.caResponse),
      (SECRET_KEY, g1.keyPem),
      (SECRET_CERT, env.signResponse g1.csrPem),
      (SECRET_CA, env.caResponse)]⟩, false⟩,
    ⟨some ⟨some [
      (SECRET_CHAIN, concatBytes (env.repoCertificates (hexEncode (C.sha256 pc)) ++ [env.caResponse])),
      (SECRET_CERT_WITH_CA, env.signResponse g1.csrPem ++ env.caResponse),
      (SECRET_KEY, g1.keyPem),
      (SECRET_CERT, env.signResponse g1.csrPem),
      (SECRET_CA, env.caResponse)]⟩, false⟩,
    [.pkiGetCa, .storeCa env.caResponse, .pkiSignCsr g1.csrPem,
      .storeCertificate (env.signResponse g1.csrPem) g1.keyPem,
      .repoGetCertificates (hexEncode (C.sha256 pc)),
      .storeChain (env.repoCertificates (hexEncode (C.sha256 pc)) ++ [env.caResponse])],
    [.repoGetCertificates (hexEncode (C.sha256 pc)),
      .storeChain (env.repoCertificates (hexEncode (C.sha256 pc)) ++ [env.caResponse])],
    ?_, ?_, ?_, ?_, ?_⟩
  · simp [fetch_contracts, andThen, step_ca, step_cert, step_chain,
      kubeModel, KubernetesStorage.has_ca, KubernetesStorage.has_certificate,
      KubernetesStorage.get_ca, KubernetesStorage.store_ca,
      KubernetesStorage.store_certificate, KubernetesStorage.store_chain,
      KubernetesStorage.modify_secret, certificate_hash, freshKState,
      SData.find, SData.insert, List.find?, List.eraseP,
      SECRET_CA, SECRET_CERT, SECRET_KEY, SECRET_CERT_WITH_CA, SECRET_CHAIN,
      h1, h2, h3]
  · simp [fetch_contracts, andThen, step_ca, step_cert, step_chain,
      kubeModel, KubernetesStorage.has_ca, KubernetesStorage.has_certificate,
      KubernetesStorage.get_ca, KubernetesStorage.store_ca,
      KubernetesStorage.store_certificate, KubernetesStorage.store_chain,
      KubernetesStorage.modify_secret, certificate_hash, freshKState,
      SData.find, SData.insert, List.find?, List.eraseP,
      SECRET_CA, SECRET_CERT, SECRET_KEY, SECRET_CERT_WITH_CA, SECRET_CHAIN,
      h1, h2, h3]
  · simp [countEvents, Event.isPkiCall]
  · simp [countEvents, Event.isRepoCall, Event.isPkiCall, Event.isStoreChain]
  · simp [countEvents, Event.isStoreChain]

/-- C3 witness: the two consecutive runs at the concrete demonstration
values, with parse hypotheses discharged by computation. -/
theorem c3_witness :
    demoCrypto.parseCert demoEnv.caResponse = some [1, 2] ∧
    demoCrypto.parseCert (demoEnv.signResponse demoCsr.csrPem) = some [3, 4] ∧
    demoCrypto.parseKey demoCsr.keyPem = some [9] ∧
    ∃ (s1 s2 : KState) (tr1 tr2 : List Event),
      fetch_contracts (kubeModel demoCrypto) demoEnv demoCsr freshKState =
        (.ok s1, tr1) ∧
      fetch_contracts (kubeModel demoCrypto) demoEnv demoCsr2 s1 = (.ok s2, tr2) ∧
      countEvents Event.isPkiCall tr2 = 0 ∧
      countEvents Event.isRepoCall tr2 = 1 ∧
      countEvents Event.isStoreChain tr2 = 1 :=
  ⟨by decide, by decide, by decide,
    c3_second_run_zero_pki_one_repo_one_chain demoCrypto demoEnv demoCsr demoCsr2
      [1, 2] [3, 4] [9] (by decide) (by decide) (by decide)⟩
